import Mathlib

/-!
Verification of the Attendance Ledger Engine of the
Attending-System-V6 backend.

The definitions below are a shallow embedding of the ledger logic in
`backend - Copy/models/student.model.js` (the `markAttendance`,
`getAttendanceStats`, `clearAttendanceHistory`, `deleteAttendanceRecord`
and `getFilteredAttendanceHistory` methods of the Student schema) and of
the scan-intent branch of the QR controller (`markAttendance` in the QR
controller file).

Modelling conventions:
* Instants (JS `Date`) are `Nat` milliseconds in a single fixed time zone,
  so `toDateString()` / `toISOString().split('T')[0]` day equality both
  become equality of `dayOf` (integer division by 86_400_000).
* JS numbers holding counts are `Nat` (the schema constrains
  `attendanceCount` with `min: 0`, and the code only adds 1 or applies
  `Math.max(0, n - 1)`, which is `Nat` truncated subtraction).
* `attendancePercentage` is modelled in `ℚ`; the JS float expressions are
  transcribed literally.
* Nullable JS values (`null` / falsy) become `Option`; the JS `a || b`
  idiom on nullable values is `jsOr`.
* Mongoose record `_id`s become a `rid : Nat` field; the fresh id that
  mongoose generates for a pushed subdocument is an explicit `newRid`
  argument.
-/

namespace AttendLedger

/-! ## Time -/

/-- An instant: milliseconds since the epoch, in the configured time zone. -/
abbrev Time := Nat

def msPerDay : Nat := 86400000

/-- The calendar day an instant falls on (JS `toDateString` equality and
`toISOString().split('T')[0]` equality both compare this). -/
def dayOf (t : Time) : Nat := t / msPerDay

/-- JS `end.setHours(23, 59, 59, 999)`: the last millisecond of `t`'s day. -/
def endOfDay (t : Time) : Time := dayOf t * msPerDay + (msPerDay - 1)

/-! ## Data model -/

/-- The `status` enum of an attendance record:
`['present', 'absent', 'left', 'entered']`. -/
inductive Status where
  | present
  | absent
  | left
  | entered
deriving DecidableEq, Repr

/-- One entry of `attendanceHistory`. -/
structure AttRecord where
  rid : Nat
  date : Time
  status : Status
  entryTime : Option Time := none
  leaveTime : Option Time := none
  verifiedBy : Option Nat := none
  scanLocation : String := "Main Entrance"
  deviceInfo : Option String := none
deriving DecidableEq, Repr

/-- The ledger-relevant fields of a Student document. -/
structure Student where
  attendanceHistory : List AttRecord := []
  attendanceCount : Nat := 0
  attendancePercentage : Rat := 0
  lastAttendance : Option Time := none
deriving DecidableEq, Repr

/-! ## JS idioms -/

/-- JS `a || b` on nullable values. -/
def jsOr {α : Type} (a b : Option α) : Option α :=
  match a with
  | some x => some x
  | none => b

/-- In-place update of the element at index `i` (JS mutation of
`this.attendanceHistory[idx]`). -/
def modifyIdx {α : Type} (l : List α) (i : Nat) (f : α → α) : List α :=
  match l, i with
  | [], _ => []
  | a :: as, 0 => f a :: as
  | a :: as, i + 1 => a :: modifyIdx as i f

/-- JS `Array.prototype.findIndex`, returning `none` for `-1`. -/
def findIdxBy {α : Type} (p : α → Bool) : List α → Option Nat
  | [] => none
  | a :: as => if p a then some 0 else (findIdxBy p as).map (· + 1)

/-! ## Ledger mutator: `markAttendance` (student.model.js lines 207-288) -/

/-- The `presentRecords / totalRecords * 100` recomputation at the end of
`markAttendance` (lines 276-284); records with status `present` or
`entered` count as present. -/
def recomputePct (h : List AttRecord) : Rat :=
  if 0 < h.length then
    (((h.filter fun r => decide (r.status = .present ∨ r.status = .entered)).length : Rat)
      / (h.length : Rat)) * 100
  else 0

/-- The fresh record pushed when no record exists for today
(lines 217-240). -/
def newAttendanceRecord (status : Status) (adminId : Option Nat)
    (deviceInfo : Option String) (scanLocation : Option String)
    (now : Time) (newRid : Nat) : AttRecord :=
  { rid := newRid
    date := now
    status := status
    entryTime := if status = .entered ∨ status = .present then some now else none
    leaveTime := if status = .left then some now else none
    verifiedBy := adminId
    scanLocation := scanLocation.getD "Main Entrance"
    deviceInfo := deviceInfo }

/-- The in-place update of today's record (lines 243-271): `left` always
overwrites; `entered`/`present` set `entryTime` only if unset and never
overwrite a `left` status; provenance fields are merged non-destructively. -/
def updateTodayRecord (status : Status) (adminId : Option Nat)
    (deviceInfo : Option String) (scanLocation : Option String)
    (now : Time) (r : AttRecord) : AttRecord :=
  let r1 :=
    if status = .left then
      { r with leaveTime := some now, status := Status.left }
    else if status = .entered ∨ status = .present then
      let r2 := if r.entryTime = none then { r with entryTime := some now } else r
      if r2.status ≠ .left then { r2 with status := status } else r2
    else r
  { r1 with
    verifiedBy := jsOr adminId r1.verifiedBy
    scanLocation := scanLocation.getD r1.scanLocation
    deviceInfo := jsOr deviceInfo r1.deviceInfo }

/-- `studentSchema.methods.markAttendance` (lines 207-288). `now` is the
call's `new Date()`; `newRid` is the id mongoose would give a pushed
record. -/
def markAttendance (s : Student) (status : Status) (adminId : Option Nat)
    (deviceInfo : Option String) (scanLocation : Option String)
    (now : Time) (newRid : Nat) : Student :=
  match findIdxBy (fun r => decide (dayOf r.date = dayOf now)) s.attendanceHistory with
  | none =>
      let history := s.attendanceHistory ++
        [newAttendanceRecord status adminId deviceInfo scanLocation now newRid]
      { attendanceHistory := history
        attendanceCount :=
          if status = .present then s.attendanceCount + 1 else s.attendanceCount
        attendancePercentage := recomputePct history
        lastAttendance := some now }
  | some idx =>
      let history := modifyIdx s.attendanceHistory idx
        (updateTodayRecord status adminId deviceInfo scanLocation now)
      let count :=
        match s.attendanceHistory[idx]? with
        | some r =>
            if status = .present ∧ r.leaveTime = none then
              s.attendanceCount + 1
            else s.attendanceCount
        | none => s.attendanceCount
      { attendanceHistory := history
        attendanceCount := count
        attendancePercentage := recomputePct history
        lastAttendance := some now }

/-! ## `getAttendanceStats` (lines 291-315) -/

structure DayStats where
  total : Nat
  present : Nat
  absent : Nat
  percentage : Rat
deriving DecidableEq, Repr

/-- `studentSchema.methods.getAttendanceStats`: plain instant comparison
`startDate <= record.date <= endDate`; the `switch` counts only the exact
statuses `present` and `absent`. -/
def getAttendanceStats (s : Student) (startDate endDate : Time) : DayStats :=
  let records := s.attendanceHistory.filter fun r =>
    decide (startDate ≤ r.date ∧ r.date ≤ endDate)
  let presentN := (records.filter fun r => decide (r.status = .present)).length
  let absentN := (records.filter fun r => decide (r.status = .absent)).length
  { total := records.length
    present := presentN
    absent := absentN
    percentage :=
      if 0 < records.length then
        ((presentN : Rat) / (records.length : Rat)) * 100
      else 0 }

/-! ## `clearAttendanceHistory` (lines 318-325) -/

def clearAttendanceHistory (_s : Student) : Student :=
  { attendanceHistory := []
    attendanceCount := 0
    attendancePercentage := 0
    lastAttendance := none }

/-! ## Sorting by date

JS `Array.prototype.sort` with the comparator
`order * (new Date(a.date) - new Date(b.date))` is a stable sort on the
`date` field; modelled as a stable insertion sort. -/

/-- Insert keeping descending `date` order, after all elements with a
`date` that is not smaller (stability). -/
def insertDescByDate (r : AttRecord) : List AttRecord → List AttRecord
  | [] => [r]
  | x :: xs =>
      if r.date ≤ x.date then x :: insertDescByDate r xs else r :: x :: xs

/-- Insert keeping ascending `date` order, after all elements with a
`date` that is not larger (stability). -/
def insertAscByDate (r : AttRecord) : List AttRecord → List AttRecord
  | [] => [r]
  | x :: xs =>
      if x.date ≤ r.date then x :: insertAscByDate r xs else r :: x :: xs

inductive SortOrder where
  | asc
  | desc
deriving DecidableEq, Repr

def sortByDate (o : SortOrder) : List AttRecord → List AttRecord
  | [] => []
  | r :: rs =>
      match o with
      | .asc => insertAscByDate r (sortByDate .asc rs)
      | .desc => insertDescByDate r (sortByDate .desc rs)

/-! ## `deleteAttendanceRecord` (lines 328-372) -/

/-- `studentSchema.methods.deleteAttendanceRecord`. `none` models the
`throw new Error('Attendance record not found')` path (the document is
left untouched there); `some (deletedRecord, updatedStudent)` models the
returned pair. `Math.max(0, count - 1)` is `Nat` subtraction. After the
splice, `lastAttendance` is the `date` of the head of the history sorted
by date descending (or `null` when empty). -/
def deleteAttendanceRecord (s : Student) (recordId : Nat) :
    Option (AttRecord × Student) :=
  match findIdxBy (fun r => decide (r.rid = recordId)) s.attendanceHistory with
  | none => none
  | some idx =>
      match s.attendanceHistory[idx]? with
      | none => none
      | some deletedRecord =>
          let history := s.attendanceHistory.eraseIdx idx
          let count :=
            if deletedRecord.status = .present ∨ deletedRecord.status = .entered then
              s.attendanceCount - 1
            else s.attendanceCount
          let pct :=
            if 0 < history.length then
              (((history.filter fun r =>
                  decide (r.status = .present ∨ r.status = .entered)).length : Rat)
                / (history.length : Rat)) * 100
            else 0
          let last := ((sortByDate .desc history).head?).map (·.date)
          some (deletedRecord,
            { attendanceHistory := history
              attendanceCount := count
              attendancePercentage := pct
              lastAttendance := last })

/-! ## `getFilteredAttendanceHistory` (lines 375-440) -/

structure QueryStats where
  totalCount : Nat
  filteredCount : Nat
  presentCount : Nat
  absentCount : Nat
  attendancePercentage : Rat
deriving DecidableEq, Repr

structure QueryResult where
  records : List AttRecord
  totalRecords : Nat
  stats : QueryStats
deriving DecidableEq, Repr

/-- Query options. `sortBy` is fixed to the `date` field (the controller's
default); the generic-field comparator branch of the source is not needed
by any claim. -/
structure QueryOptions where
  startDate : Option Time := none
  endDate : Option Time := none
  limit : Option Nat := none
  offset : Nat := 0
  sortOrder : SortOrder := .desc
deriving DecidableEq, Repr

/-- The two date filters of `getFilteredAttendanceHistory` (lines 388-401):
`record.date >= new Date(startDate)` with the start instant used as-is, and
`record.date <= end` where `end` is `endDate` moved to 23:59:59.999 of its
day. -/
def applyDateFilter (history : List AttRecord) (startDate endDate : Option Time) :
    List AttRecord :=
  let f1 :=
    match startDate with
    | none => history
    | some sd => history.filter fun r => decide (sd ≤ r.date)
  match endDate with
  | none => f1
  | some ed => f1.filter fun r => decide (r.date ≤ endOfDay ed)

/-- `studentSchema.methods.getFilteredAttendanceHistory`: filter, sort,
count, paginate (`slice(offset, offset + limit)` when a limit is given),
and compute `stats` from the full `attendanceHistory` plus the filtered
count and the cached `attendancePercentage`. -/
def getFilteredAttendanceHistory (s : Student) (o : QueryOptions) : QueryResult :=
  let filteredHistory := applyDateFilter s.attendanceHistory o.startDate o.endDate
  let sorted := sortByDate o.sortOrder filteredHistory
  let totalCount := sorted.length
  let paginated :=
    match o.limit with
    | none => sorted
    | some n => (sorted.drop o.offset).take n
  { records := paginated
    totalRecords := totalCount
    stats :=
      { totalCount := s.attendanceHistory.length
        filteredCount := totalCount
        presentCount := (s.attendanceHistory.filter fun r =>
          decide (r.status = .present ∨ r.status = .entered)).length
        absentCount := (s.attendanceHistory.filter fun r =>
          decide (r.status = .absent)).length
        attendancePercentage := s.attendancePercentage } }

/-! ## QR controller scan path (QR controller `markAttendance`) -/

/-- The status decision of the QR controller: no record today means entry;
an existing `leaveTime` means re-entry; an `entryTime` without `leaveTime`
means departure; otherwise the defensive default `entered`. -/
def resolveScanIntent (todayRecord : Option AttRecord) : Status :=
  match todayRecord with
  | none => .entered
  | some r =>
      if r.leaveTime.isSome then .entered
      else if r.entryTime.isSome then .left
      else .entered

/-- Today's record as the controller looks it up: `findIndex` on the
calendar day, then the record at that index. -/
def lookupTodayRecord (history : List AttRecord) (now : Time) : Option AttRecord :=
  (findIdxBy (fun r => decide (dayOf r.date = dayOf now)) history).bind
    fun i => history[i]?

/-- The controller's scan path: resolve the intent from today's record,
then apply it through the model's `markAttendance` with a null admin id.
`userAgent` and `location` are the controller's always-nonempty fallback
strings. -/
def qrScan (s : Student) (userAgent location : String) (now : Time)
    (newRid : Nat) : Student :=
  let statusToSave := resolveScanIntent (lookupTodayRecord s.attendanceHistory now)
  markAttendance s statusToSave none (some userAgent) (some location) now newRid

/-! ## Call sequences -/

/-- The arguments of one `markAttendance` call. -/
structure MarkCall where
  status : Status
  adminId : Option Nat := none
  deviceInfo : Option String := none
  scanLocation : Option String := some "Main Entrance"
  now : Time
  newRid : Nat := 0
deriving DecidableEq, Repr

def markOne (s : Student) (c : MarkCall) : Student :=
  markAttendance s c.status c.adminId c.deviceInfo c.scanLocation c.now c.newRid

def markSeq (s : Student) : List MarkCall → Student
  | [] => s
  | c :: cs => markSeq (markOne s c) cs

/-! ## Spec-side derived quantities -/

/-- Number of history records falling on calendar day `d`. -/
def countOnDay (h : List AttRecord) (d : Nat) : Nat :=
  (h.filter fun r => decide (dayOf r.date = d)).length

/-- Number of history records with status `present` or `entered`. -/
def presentOrEnteredCount (h : List AttRecord) : Nat :=
  (h.filter fun r => decide (r.status = .present ∨ r.status = .entered)).length

/-- The percentage the spec prescribes:
`100 × presentOrEnteredCount / totalRecords`, `0` for an empty history. -/
def pctSpec (h : List AttRecord) : Rat :=
  if h.length = 0 then 0
  else 100 * (presentOrEnteredCount h : Rat) / (h.length : Rat)

/-- The largest `date` occurring in a history (0 for an empty one). -/
def maxDate : List AttRecord → Time
  | [] => 0
  | r :: rs => max r.date (maxDate rs)

/-! ## Helper lemmas: lists and indices -/

theorem modifyIdx_length {α : Type} (l : List α) (i : Nat) (f : α → α) :
    (modifyIdx l i f).length = l.length := by
  induction l generalizing i with
  | nil => rfl
  | cons a as ih =>
    cases i with
    | zero => rfl
    | succ j => simpa [modifyIdx] using ih j

theorem findIdxBy_eq_none_iff {α : Type} (p : α → Bool) (l : List α) :
    findIdxBy p l = none ↔ ∀ a ∈ l, p a = false := by
  induction l with
  | nil => simp [findIdxBy]
  | cons a as ih =>
    by_cases h : p a = true
    · simp [findIdxBy, h]
    · simp only [Bool.not_eq_true] at h
      simp [findIdxBy, h, ih, Option.map_eq_none']

theorem findIdxBy_some_split {α : Type} (p : α → Bool) (l : List α) (i : Nat)
    (h : findIdxBy p l = some i) :
    ∃ pre a post, l = pre ++ a :: post ∧ pre.length = i ∧ p a = true ∧
      ∀ x ∈ pre, p x = false := by
  induction l generalizing i with
  | nil => simp [findIdxBy] at h
  | cons b bs ih =>
    by_cases hb : p b = true
    · simp [findIdxBy, hb] at h
      exact ⟨[], b, bs, rfl, by simp [h], hb, by simp⟩
    · simp only [Bool.not_eq_true] at hb
      simp only [findIdxBy, hb, Bool.false_eq_true, if_false,
        Option.map_eq_some'] at h
      obtain ⟨j, hj, hji⟩ := h
      obtain ⟨pre, a, post, hl, hlen, hpa, hpre⟩ := ih j hj
      refine ⟨b :: pre, a, post, by simp [hl], by simp [hlen, hji], hpa, ?_⟩
      intro x hx
      rcases List.mem_cons.mp hx with rfl | hx
      · exact hb
      · exact hpre x hx

theorem getElem?_append_cons {α : Type} (pre : List α) (a : α) (post : List α) :
    (pre ++ a :: post)[pre.length]? = some a := by
  induction pre with
  | nil => simp
  | cons b bs ih => simpa using ih

theorem modifyIdx_append_cons {α : Type} (pre : List α) (a : α) (post : List α)
    (f : α → α) :
    modifyIdx (pre ++ a :: post) pre.length f = pre ++ f a :: post := by
  induction pre with
  | nil => rfl
  | cons b bs ih => simp [modifyIdx, ih]

theorem eraseIdx_append_cons {α : Type} (pre : List α) (a : α) (post : List α) :
    (pre ++ a :: post).eraseIdx pre.length = pre ++ post := by
  induction pre with
  | nil => rfl
  | cons b bs ih => simp [List.eraseIdx, ih]

theorem filter_length_modifyIdx {α : Type} (p : α → Bool) (l : List α) (i : Nat)
    (f : α → α) (hf : ∀ a, p (f a) = p a) :
    ((modifyIdx l i f).filter p).length = (l.filter p).length := by
  induction l generalizing i with
  | nil => rfl
  | cons a as ih =>
    cases i with
    | zero =>
      simp only [modifyIdx, List.filter_cons, hf a]
      split <;> simp
    | succ j =>
      simp only [modifyIdx, List.filter_cons]
      split <;> simp [ih j]

/-! ## Helper lemmas: `updateTodayRecord` -/

theorem updateTodayRecord_date (status : Status) (adminId : Option Nat)
    (deviceInfo : Option String) (scanLocation : Option String) (now : Time)
    (r : AttRecord) :
    (updateTodayRecord status adminId deviceInfo scanLocation now r).date = r.date := by
  cases status <;> unfold updateTodayRecord <;> dsimp only <;>
    (repeat' split) <;> rfl

theorem updateTodayRecord_absent (adminId : Option Nat) (deviceInfo : Option String)
    (scanLocation : Option String) (now : Time) (r : AttRecord) :
    updateTodayRecord .absent adminId deviceInfo scanLocation now r =
      { r with
        verifiedBy := jsOr adminId r.verifiedBy
        scanLocation := scanLocation.getD r.scanLocation
        deviceInfo := jsOr deviceInfo r.deviceInfo } := by
  unfold updateTodayRecord
  simp

theorem updateTodayRecord_sticky (status : Status) (adminId : Option Nat)
    (deviceInfo : Option String) (scanLocation : Option String) (now : Time)
    (r : AttRecord) (hs : r.status = .left)
    (hst : status = .entered ∨ status = .present) :
    updateTodayRecord status adminId deviceInfo scanLocation now r =
      { r with
        entryTime := if r.entryTime = none then some now else r.entryTime
        verifiedBy := jsOr adminId r.verifiedBy
        scanLocation := scanLocation.getD r.scanLocation
        deviceInfo := jsOr deviceInfo r.deviceInfo } := by
  rcases hst with rfl | rfl <;> unfold updateTodayRecord <;>
    by_cases h3 : r.entryTime = none <;> simp [h3, hs]

/-! ## Helper lemmas: `maxDate` and sorting -/

theorem le_maxDate {r : AttRecord} {l : List AttRecord} (h : r ∈ l) :
    r.date ≤ maxDate l := by
  induction l with
  | nil => cases h
  | cons a as ih =>
    rcases List.mem_cons.mp h with rfl | h'
    · simp only [maxDate]
      exact le_max_left _ _
    · simp only [maxDate]
      exact le_trans (ih h') (le_max_right _ _)

theorem exists_maxDate {l : List AttRecord} (h : l ≠ []) :
    ∃ r ∈ l, r.date = maxDate l := by
  induction l with
  | nil => exact absurd rfl h
  | cons a as ih =>
    cases as with
    | nil => exact ⟨a, by simp, by simp [maxDate]⟩
    | cons b bs =>
      obtain ⟨r, hr, hrd⟩ := ih (by simp)
      have hmax : maxDate (a :: b :: bs) = max a.date (maxDate (b :: bs)) := rfl
      by_cases hle : maxDate (b :: bs) ≤ a.date
      · exact ⟨a, by simp, by rw [hmax, Nat.max_eq_left hle]⟩
      · refine ⟨r, List.mem_cons_of_mem a hr, ?_⟩
        rw [hmax, Nat.max_eq_right (le_of_not_le hle)]
        exact hrd

theorem insertDescByDate_length (r : AttRecord) (l : List AttRecord) :
    (insertDescByDate r l).length = l.length + 1 := by
  induction l with
  | nil => rfl
  | cons x xs ih =>
    unfold insertDescByDate
    split <;> simp [ih]

theorem insertDescByDate_headD_date (r : AttRecord) (l : List AttRecord) :
    (((insertDescByDate r l).head?).map (·.date)).getD 0 =
      max r.date ((l.head?.map (·.date)).getD 0) := by
  cases l with
  | nil => simp [insertDescByDate]
  | cons x xs =>
    unfold insertDescByDate
    split
    · rename_i h
      simp [Nat.max_eq_right h]
    · rename_i h
      simp [Nat.max_eq_left (le_of_not_le h)]

theorem sortByDate_desc_length (l : List AttRecord) :
    (sortByDate .desc l).length = l.length := by
  induction l with
  | nil => rfl
  | cons r rs ih => simp [sortByDate, insertDescByDate_length, ih]

theorem sortByDate_desc_headD (l : List AttRecord) :
    (((sortByDate .desc l).head?).map (·.date)).getD 0 = maxDate l := by
  induction l with
  | nil => rfl
  | cons r rs ih =>
    simp only [sortByDate, insertDescByDate_headD_date, ih, maxDate]

theorem sortByDate_desc_ne_nil {l : List AttRecord} (h : l ≠ []) :
    sortByDate .desc l ≠ [] := by
  intro hcon
  have := sortByDate_desc_length l
  rw [hcon] at this
  exact h (List.length_eq_zero.mp this.symm)

theorem sortByDate_desc_lastAttendance {l : List AttRecord} (h : l ≠ []) :
    ((sortByDate .desc l).head?).map (·.date) = some (maxDate l) := by
  obtain ⟨m, t, hmt⟩ := List.exists_cons_of_ne_nil (sortByDate_desc_ne_nil h)
  have := sortByDate_desc_headD l
  rw [hmt] at this ⊢
  simp at this ⊢
  exact this

theorem mem_insertDescByDate {x r : AttRecord} {l : List AttRecord} :
    x ∈ insertDescByDate r l ↔ x = r ∨ x ∈ l := by
  induction l with
  | nil => simp [insertDescByDate]
  | cons a as ih =>
    unfold insertDescByDate
    split <;> simp [ih] <;> tauto

theorem mem_insertAscByDate {x r : AttRecord} {l : List AttRecord} :
    x ∈ insertAscByDate r l ↔ x = r ∨ x ∈ l := by
  induction l with
  | nil => simp [insertAscByDate]
  | cons a as ih =>
    unfold insertAscByDate
    split <;> simp [ih] <;> tauto

theorem mem_sortByDate {x : AttRecord} (o : SortOrder) (l : List AttRecord) :
    x ∈ sortByDate o l ↔ x ∈ l := by
  induction l with
  | nil => cases o <;> simp [sortByDate]
  | cons r rs ih =>
    cases o <;>
      simp [sortByDate, mem_insertAscByDate, mem_insertDescByDate, ih]

/-! ## Helper lemmas: day counting and percentages -/

theorem recomputePct_eq_pctSpec (h : List AttRecord) :
    recomputePct h = pctSpec h := by
  unfold recomputePct pctSpec presentOrEnteredCount
  by_cases hl : h.length = 0
  · simp [hl]
  · have hpos : 0 < h.length := Nat.pos_of_ne_zero hl
    simp only [hpos, if_true, hl, if_false]
    ring

theorem countOnDay_append (h : List AttRecord) (r : AttRecord) (d : Nat) :
    countOnDay (h ++ [r]) d =
      countOnDay h d + (if dayOf r.date = d then 1 else 0) := by
  unfold countOnDay
  rw [List.filter_append]
  simp [List.filter]
  split <;> rename_i heq <;> simp at heq <;> simp [heq]

theorem countOnDay_modifyIdx (l : List AttRecord) (i : Nat)
    (f : AttRecord → AttRecord) (hf : ∀ r, (f r).date = r.date) (d : Nat) :
    countOnDay (modifyIdx l i f) d = countOnDay l d := by
  unfold countOnDay
  exact filter_length_modifyIdx _ l i f (fun a => by simp [hf a])

theorem countOnDay_eq_zero_iff (h : List AttRecord) (d : Nat) :
    countOnDay h d = 0 ↔ ∀ r ∈ h, dayOf r.date ≠ d := by
  unfold countOnDay
  rw [List.length_eq_zero, List.filter_eq_nil]
  simp

theorem findIdxBy_day_none_iff (h : List AttRecord) (d : Nat) :
    findIdxBy (fun r => decide (dayOf r.date = d)) h = none ↔
      countOnDay h d = 0 := by
  rw [findIdxBy_eq_none_iff, countOnDay_eq_zero_iff]
  simp

/-! ## Helper lemmas: `markAttendance` branch equations -/

theorem markAttendance_of_none (s : Student) (status : Status)
    (adminId : Option Nat) (deviceInfo : Option String)
    (scanLocation : Option String) (now : Time) (newRid : Nat)
    (h : findIdxBy (fun r => decide (dayOf r.date = dayOf now))
      s.attendanceHistory = none) :
    markAttendance s status adminId deviceInfo scanLocation now newRid =
      { attendanceHistory := s.attendanceHistory ++
          [newAttendanceRecord status adminId deviceInfo scanLocation now newRid]
        attendanceCount :=
          if status = .present then s.attendanceCount + 1 else s.attendanceCount
        attendancePercentage := recomputePct (s.attendanceHistory ++
          [newAttendanceRecord status adminId deviceInfo scanLocation now newRid])
        lastAttendance := some now } := by
  unfold markAttendance
  rw [h]

theorem markAttendance_of_some (s : Student) (status : Status)
    (adminId : Option Nat) (deviceInfo : Option String)
    (scanLocation : Option String) (now : Time) (newRid : Nat) (idx : Nat)
    (h : findIdxBy (fun r => decide (dayOf r.date = dayOf now))
      s.attendanceHistory = some idx) :
    markAttendance s status adminId deviceInfo scanLocation now newRid =
      { attendanceHistory := modifyIdx s.attendanceHistory idx
          (updateTodayRecord status adminId deviceInfo scanLocation now)
        attendanceCount :=
          match s.attendanceHistory[idx]? with
          | some r =>
              if status = .present ∧ r.leaveTime = none then
                s.attendanceCount + 1
              else s.attendanceCount
          | none => s.attendanceCount
        attendancePercentage := recomputePct (modifyIdx s.attendanceHistory idx
          (updateTodayRecord status adminId deviceInfo scanLocation now))
        lastAttendance := some now } := by
  unfold markAttendance
  rw [h]

/-! ## Claim C1 -/

/-- C1: Sticky-left rule: for every student whose record for the current
calendar day has status `left`, any `markAttendance` call that same day with
status `entered` or `present` leaves the record's status equal to `left`; it
may update `entryTime` (only if unset), `verifiedBy`, `scanLocation` and
`deviceInfo`, but never moves the status away from `left` (in particular
`date` and `leaveTime` are also untouched, as the record equation shows). -/
theorem C1_sticky_left (s : Student) (status : Status) (adminId : Option Nat)
    (deviceInfo : Option String) (scanLocation : Option String) (now : Time)
    (newRid : Nat) (idx : Nat) (r : AttRecord)
    (hst : status = .entered ∨ status = .present)
    (hIdx : findIdxBy (fun x => decide (dayOf x.date = dayOf now))
      s.attendanceHistory = some idx)
    (hr : s.attendanceHistory[idx]? = some r)
    (hleft : r.status = .left) :
    (markAttendance s status adminId deviceInfo scanLocation now
        newRid).attendanceHistory[idx]? =
      some { r with
        status := Status.left
        entryTime := if r.entryTime = none then some now else r.entryTime
        verifiedBy := jsOr adminId r.verifiedBy
        scanLocation := scanLocation.getD r.scanLocation
        deviceInfo := jsOr deviceInfo r.deviceInfo } := by
  obtain ⟨pre, a, post, hl, hlen, hpa, hpre⟩ :=
    findIdxBy_some_split _ _ _ hIdx
  have ha : a = r := by
    rw [hl, ← hlen, getElem?_append_cons] at hr
    exact Option.some_injective _ hr
  subst ha
  rw [markAttendance_of_some s status adminId deviceInfo scanLocation now
    newRid idx hIdx]
  simp only [hl, ← hlen, modifyIdx_append_cons, getElem?_append_cons]
  rw [updateTodayRecord_sticky status adminId deviceInfo scanLocation now a
    hleft hst]
  rw [← hleft]

/-- Witness for C1 at a concrete input: a student whose single record today
is `left` (entry unset, leave 100), scanned again as `entered` at time 200. -/
theorem C1_sticky_left_witness :
    (markAttendance
        { attendanceHistory :=
            [{ rid := 0, date := 100, status := Status.left, entryTime := none,
               leaveTime := some 100, verifiedBy := none,
               scanLocation := "Main Entrance", deviceInfo := none }]
          attendanceCount := 0
          attendancePercentage := 0
          lastAttendance := some 100 }
        .entered none (some "phone") (some "Gate") 200 5).attendanceHistory[0]? =
      some { rid := 0, date := 100, status := Status.left, entryTime := some 200,
             leaveTime := some 100, verifiedBy := none, scanLocation := "Gate",
             deviceInfo := some "phone" } := by
  have h := C1_sticky_left
    { attendanceHistory :=
        [{ rid := 0, date := 100, status := Status.left, entryTime := none,
           leaveTime := some 100, verifiedBy := none,
           scanLocation := "Main Entrance", deviceInfo := none }]
      attendanceCount := 0
      attendancePercentage := 0
      lastAttendance := some 100 }
    .entered none (some "phone") (some "Gate") 200 5 0
    { rid := 0, date := 100, status := Status.left, entryTime := none,
      leaveTime := some 100, verifiedBy := none,
      scanLocation := "Main Entrance", deviceInfo := none }
    (Or.inl rfl) (by decide) (by decide) rfl
  simpa using h

/-! ## Helper lemmas: percentages after each mutator -/

theorem markAttendance_pct_eq (s : Student) (status : Status)
    (adminId : Option Nat) (deviceInfo : Option String)
    (scanLocation : Option String) (now : Time) (newRid : Nat) :
    (markAttendance s status adminId deviceInfo scanLocation now
        newRid).attendancePercentage =
      recomputePct (markAttendance s status adminId deviceInfo scanLocation now
        newRid).attendanceHistory := by
  cases hf : findIdxBy (fun r => decide (dayOf r.date = dayOf now))
      s.attendanceHistory with
  | none => rw [markAttendance_of_none _ _ _ _ _ _ _ hf]
  | some idx => rw [markAttendance_of_some _ _ _ _ _ _ _ idx hf]

/-- Full characterization of a successful `deleteAttendanceRecord`:
the history splits around the first record carrying `recordId`, and every
derived field of the updated student is the source's recomputation. -/
theorem delete_some_spec (s : Student) (recordId : Nat) (del : AttRecord)
    (s' : Student) (h : deleteAttendanceRecord s recordId = some (del, s')) :
    ∃ pre post,
      s.attendanceHistory = pre ++ del :: post ∧
      (∀ x ∈ pre, x.rid ≠ recordId) ∧
      del.rid = recordId ∧
      s'.attendanceHistory = pre ++ post ∧
      s'.attendanceCount = (if del.status = .present ∨ del.status = .entered
        then s.attendanceCount - 1 else s.attendanceCount) ∧
      s'.attendancePercentage = recomputePct (pre ++ post) ∧
      s'.lastAttendance = ((sortByDate .desc (pre ++ post)).head?).map (·.date) := by
  unfold deleteAttendanceRecord at h
  cases hf : findIdxBy (fun r => decide (r.rid = recordId)) s.attendanceHistory with
  | none => rw [hf] at h; exact absurd h (by simp)
  | some idx =>
      rw [hf] at h
      obtain ⟨pre, a, post, hl, hlen, hpa, hpre⟩ := findIdxBy_some_split _ _ _ hf
      have hget : s.attendanceHistory[idx]? = some a := by
        rw [hl, ← hlen]; exact getElem?_append_cons pre a post
      simp only [hget, Option.some.injEq, Prod.mk.injEq] at h
      obtain ⟨hdel, hs'⟩ := h
      subst hdel
      have herase : s.attendanceHistory.eraseIdx idx = pre ++ post := by
        rw [hl, ← hlen]; exact eraseIdx_append_cons pre a post
      refine ⟨pre, post, hl, ?_, of_decide_eq_true hpa, ?_, ?_, ?_, ?_⟩
      · intro x hx
        have := hpre x hx
        simpa using this
      · rw [← hs']; simp [herase]
      · rw [← hs']
      · rw [← hs']; simp [herase, recomputePct]
      · rw [← hs']; simp [herase]

/-! ## Claim C2 -/

/-- C2 counterexample: the claim's cache-consistency of `attendanceCount`
with `attendanceHistory` fails. Marking `present` once from an empty
student, versus marking `present` twice the same day (a double scan),
produces the *same* `attendanceHistory` but `attendanceCount` 1 versus 2:
the count drifts, so it is not a function of the history contents. -/
theorem C2_cache_consistency_counterexample :
    (markAttendance {} .present none none (some "Main Entrance") 0 0).attendanceHistory =
      (markAttendance (markAttendance {} .present none none (some "Main Entrance") 0 0)
        .present none none (some "Main Entrance") 0 0).attendanceHistory ∧
    (markAttendance {} .present none none (some "Main Entrance") 0 0).attendanceCount = 1 ∧
    (markAttendance (markAttendance {} .present none none (some "Main Entrance") 0 0)
      .present none none (some "Main Entrance") 0 0).attendanceCount = 2 ∧
    (markAttendance {} .present none none (some "Main Entrance") 0 0).attendanceCount ≠
      (markAttendance (markAttendance {} .present none none (some "Main Entrance") 0 0)
        .present none none (some "Main Entrance") 0 0).attendanceCount := by
  decide

/-- C2 (amended): after each mutating operation (`markAttendance`,
`deleteAttendanceRecord`, `clearAttendanceHistory`) the stored
`attendancePercentage` equals `100 × presentOrEnteredCount / totalRecords`
over the current history (0 when empty), and `attendanceCount` is never
negative (it lives in `ℕ`, matching the schema's `min: 0` and the
`Math.max(0, ·)` floor). The claim's further assertion that
`attendanceCount` is consistent with (determined by) the history contents
is false — see the counterexample: repeated same-day `present` marks
increment the count while leaving the history unchanged. -/
theorem C2_cache_consistency_amended (s : Student) (status : Status)
    (adminId : Option Nat) (deviceInfo : Option String)
    (scanLocation : Option String) (now : Time) (newRid recordId : Nat)
    (del : AttRecord) (s' : Student) :
    (markAttendance s status adminId deviceInfo scanLocation now
        newRid).attendancePercentage =
      pctSpec (markAttendance s status adminId deviceInfo scanLocation now
        newRid).attendanceHistory ∧
    (clearAttendanceHistory s).attendancePercentage =
      pctSpec (clearAttendanceHistory s).attendanceHistory ∧
    (deleteAttendanceRecord s recordId = some (del, s') →
      s'.attendancePercentage = pctSpec s'.attendanceHistory) ∧
    0 ≤ (markAttendance s status adminId deviceInfo scanLocation now
      newRid).attendanceCount ∧
    (deleteAttendanceRecord s recordId = some (del, s') →
      0 ≤ s'.attendanceCount) := by
  refine ⟨?_, ?_, ?_, Nat.zero_le _, fun _ => Nat.zero_le _⟩
  · rw [markAttendance_pct_eq, recomputePct_eq_pctSpec]
  · simp [clearAttendanceHistory, pctSpec, presentOrEnteredCount]
  · intro hdel
    obtain ⟨pre, post, _, _, _, hh, _, hp, _⟩ :=
      delete_some_spec s recordId del s' hdel
    rw [hp, recomputePct_eq_pctSpec, hh]

/-- Witness for C2 (amended) at a concrete input: deleting the only record
of a one-record student. -/
theorem C2_cache_consistency_amended_witness :
    (Student.mk [] 0 0 none).attendancePercentage =
      pctSpec (Student.mk [] 0 0 none).attendanceHistory :=
  (C2_cache_consistency_amended
    { attendanceHistory :=
        [{ rid := 7, date := 10, status := Status.present, entryTime := some 10,
           leaveTime := none, verifiedBy := none,
           scanLocation := "Main Entrance", deviceInfo := none }]
      attendanceCount := 1
      attendancePercentage := 100
      lastAttendance := some 10 }
    .present none none (some "Main Entrance") 50 1 7
    { rid := 7, date := 10, status := Status.present, entryTime := some 10,
      leaveTime := none, verifiedBy := none,
      scanLocation := "Main Entrance", deviceInfo := none }
    (Student.mk [] 0 0 none)).2.2.1 (by decide)

/-! ## Claim C3 -/

theorem markOne_countOnDay (s : Student) (c : MarkCall) (d : Nat) :
    countOnDay (markOne s c).attendanceHistory d =
      (if findIdxBy (fun r => decide (dayOf r.date = dayOf c.now))
          s.attendanceHistory = none
        then countOnDay s.attendanceHistory d + (if dayOf c.now = d then 1 else 0)
        else countOnDay s.attendanceHistory d) := by
  unfold markOne
  cases hf : findIdxBy (fun r => decide (dayOf r.date = dayOf c.now))
      s.attendanceHistory with
  | none =>
      rw [markAttendance_of_none _ _ _ _ _ _ _ hf]
      simp [hf, countOnDay_append, newAttendanceRecord]
  | some idx =>
      rw [markAttendance_of_some _ _ _ _ _ _ _ idx hf, if_neg (by simp [hf])]
      exact countOnDay_modifyIdx _ _ _
        (updateTodayRecord_date c.status c.adminId c.deviceInfo c.scanLocation c.now) d

theorem markOne_countOnDay_le_one (s : Student) (c : MarkCall) (d : Nat)
    (hc : dayOf c.now = d) (h0 : countOnDay s.attendanceHistory d ≤ 1) :
    countOnDay (markOne s c).attendanceHistory d ≤ 1 := by
  rw [markOne_countOnDay]
  by_cases hf : findIdxBy (fun r => decide (dayOf r.date = dayOf c.now))
      s.attendanceHistory = none
  · have hz : countOnDay s.attendanceHistory d = 0 := by
      rw [← hc]
      exact (findIdxBy_day_none_iff _ _).mp hf
    rw [if_pos hf]
    simp [hz, hc]
  · simpa [hf] using h0

/-- C3: per-day deduplication. Starting from any history with at most one
record on day `d`, any sequence of `markAttendance` calls whose instants all
fall on day `d` leaves at most one record on day `d`; moreover a single such
call appends exactly one new record (the source's push) when no record for
the day exists, and otherwise rewrites the existing record in place (same
length, same per-day count). -/
theorem C3_per_day_dedup (s : Student) (d : Nat) (calls : List MarkCall)
    (c : MarkCall) (h0 : countOnDay s.attendanceHistory d ≤ 1)
    (hd : ∀ x ∈ calls, dayOf x.now = d) (hc : dayOf c.now = d) :
    countOnDay (markSeq s calls).attendanceHistory d ≤ 1 ∧
    (countOnDay s.attendanceHistory d = 0 →
      (markOne s c).attendanceHistory = s.attendanceHistory ++
        [newAttendanceRecord c.status c.adminId c.deviceInfo c.scanLocation
          c.now c.newRid] ∧
      countOnDay (markOne s c).attendanceHistory d = 1) ∧
    (0 < countOnDay s.attendanceHistory d →
      (markOne s c).attendanceHistory.length = s.attendanceHistory.length ∧
      countOnDay (markOne s c).attendanceHistory d =
        countOnDay s.attendanceHistory d) := by
  refine ⟨?_, ?_, ?_⟩
  · induction calls generalizing s with
    | nil => exact h0
    | cons x xs ih =>
      have hx : dayOf x.now = d := hd x (List.mem_cons_self x xs)
      exact ih (markOne s x) (markOne_countOnDay_le_one s x d hx h0)
        (fun y hy => hd y (List.mem_cons_of_mem x hy))
  · intro hz
    have hf : findIdxBy (fun r => decide (dayOf r.date = dayOf c.now))
        s.attendanceHistory = none := by
      rw [findIdxBy_day_none_iff]
      rw [hc]
      exact hz
    constructor
    · unfold markOne
      rw [markAttendance_of_none _ _ _ _ _ _ _ hf]
    · rw [markOne_countOnDay, if_pos hf]
      simp [hz, hc]
  · intro hpos
    have hf : ¬ findIdxBy (fun r => decide (dayOf r.date = dayOf c.now))
        s.attendanceHistory = none := by
      rw [findIdxBy_day_none_iff, hc]
      omega
    cases hfs : findIdxBy (fun r => decide (dayOf r.date = dayOf c.now))
        s.attendanceHistory with
    | none => exact absurd hfs hf
    | some idx =>
      constructor
      · unfold markOne
        rw [markAttendance_of_some _ _ _ _ _ _ _ idx hfs]
        exact modifyIdx_length _ _ _
      · rw [markOne_countOnDay]
        simp [hfs]

/-- Witness for C3 at a concrete input: three same-day calls
(`entered`, then `left`, then `present`) starting from an empty history. -/
theorem C3_per_day_dedup_witness :
    countOnDay (markSeq {}
      [{ status := .entered, now := 10, newRid := 0 },
       { status := .left, now := 20, newRid := 1 },
       { status := .present, now := 30, newRid := 2 }]).attendanceHistory 0 ≤ 1 :=
  (C3_per_day_dedup {} 0
    [{ status := .entered, now := 10, newRid := 0 },
     { status := .left, now := 20, newRid := 1 },
     { status := .present, now := 30, newRid := 2 }]
    { status := .entered, now := 10, newRid := 0 }
    (by decide) (by decide) (by decide)).1

/-! ## Claim C4 -/

/-- C4: Scan-intent resolution. The unlabeled QR-scan path chooses
`entered` when no record exists for today, `entered` when today's record
has `leaveTime` set (re-entry), `left` when `entryTime` is set and
`leaveTime` unset, and `entered` when neither time is set; the chosen
status is then applied through the ledger mutator `markAttendance`. -/
theorem C4_scan_intent (s : Student) (userAgent location : String)
    (now : Time) (newRid : Nat) (r : AttRecord) :
    resolveScanIntent none = Status.entered ∧
    (r.leaveTime.isSome → resolveScanIntent (some r) = Status.entered) ∧
    (r.entryTime.isSome → r.leaveTime = none →
      resolveScanIntent (some r) = Status.left) ∧
    (r.entryTime = none → r.leaveTime = none →
      resolveScanIntent (some r) = Status.entered) ∧
    qrScan s userAgent location now newRid =
      markAttendance s
        (resolveScanIntent (lookupTodayRecord s.attendanceHistory now))
        none (some userAgent) (some location) now newRid := by
  refine ⟨rfl, ?_, ?_, ?_, rfl⟩
  · intro h
    simp [resolveScanIntent, h]
  · intro he hl
    simp [resolveScanIntent, he, hl]
  · intro he hl
    simp [resolveScanIntent, he, hl]

/-- Witness for C4 at a concrete input: a record with `entryTime` set and
`leaveTime` unset resolves to `left`. -/
theorem C4_scan_intent_witness :
    resolveScanIntent
      (some { rid := 0, date := 10, status := Status.entered,
              entryTime := some 10, leaveTime := none, verifiedBy := none,
              scanLocation := "Main Entrance", deviceInfo := none }) =
      Status.left :=
  (C4_scan_intent {} "ua" "gate" 10 0
    { rid := 0, date := 10, status := Status.entered, entryTime := some 10,
      leaveTime := none, verifiedBy := none, scanLocation := "Main Entrance",
      deviceInfo := none }).2.2.1 (by decide) rfl

/-! ## Claim C5 -/

theorem delete_none_iff (s : Student) (recordId : Nat) :
    deleteAttendanceRecord s recordId = none ↔
      ∀ r ∈ s.attendanceHistory, r.rid ≠ recordId := by
  cases hf : findIdxBy (fun r => decide (r.rid = recordId)) s.attendanceHistory with
  | none =>
      have hall := (findIdxBy_eq_none_iff _ _).mp hf
      constructor
      · intro _ r hr
        simpa using hall r hr
      · intro _
        unfold deleteAttendanceRecord
        rw [hf]
  | some idx =>
      obtain ⟨pre, a, post, hl, hlen, hpa, _⟩ := findIdxBy_some_split _ _ _ hf
      have hget : s.attendanceHistory[idx]? = some a := by
        rw [hl, ← hlen]
        exact getElem?_append_cons pre a post
      constructor
      · intro h
        unfold deleteAttendanceRecord at h
        rw [hf] at h
        simp [hget] at h
      · intro hall
        exact absurd (of_decide_eq_true hpa)
          (hall a (by rw [hl]; exact List.mem_append_right _ (List.mem_cons_self a post)))

/-- The `lastAttendance` recomputed by a successful delete is the date of a
chronologically latest remaining record (or `none` when the history is
emptied). -/
theorem delete_lastAttendance_spec (s : Student) (recordId : Nat)
    (del : AttRecord) (s' : Student)
    (hdel : deleteAttendanceRecord s recordId = some (del, s')) :
    (s'.attendanceHistory = [] ∧ s'.lastAttendance = none) ∨
      ∃ r ∈ s'.attendanceHistory, s'.lastAttendance = some r.date ∧
        ∀ x ∈ s'.attendanceHistory, x.date ≤ r.date := by
  obtain ⟨pre, post, _, _, _, hh, _, _, hlast⟩ :=
    delete_some_spec s recordId del s' hdel
  by_cases hnil : pre ++ post = ([] : List AttRecord)
  · left
    constructor
    · rw [hh, hnil]
    · rw [hlast, hnil]
      rfl
  · right
    obtain ⟨r, hr, hrd⟩ := exists_maxDate hnil
    refine ⟨r, by rw [hh]; exact hr, ?_, ?_⟩
    · rw [hlast, sortByDate_desc_lastAttendance hnil, hrd]
    · intro x hx
      rw [hh] at hx
      rw [hrd]
      exact le_maxDate hx

/-- C5: `deleteAttendanceRecord` contract. It fails (returns the
not-found error path) iff no history record carries `recordId`; on
success it removes exactly the (first) record with that id, decrements
`attendanceCount` by one floored at zero (`ℕ` subtraction) iff the deleted
record's status was `present` or `entered`, recomputes
`attendancePercentage` over the remaining history (0 if empty), and sets
`lastAttendance` to the date of the chronologically latest remaining
record, or null when the history is now empty. -/
theorem C5_delete_record_contract (s : Student) (recordId : Nat)
    (del : AttRecord) (s' : Student) :
    (deleteAttendanceRecord s recordId = none ↔
      ∀ r ∈ s.attendanceHistory, r.rid ≠ recordId) ∧
    (deleteAttendanceRecord s recordId = some (del, s') →
      del.rid = recordId ∧
      (∃ pre post, s.attendanceHistory = pre ++ del :: post ∧
        (∀ x ∈ pre, x.rid ≠ recordId) ∧ s'.attendanceHistory = pre ++ post) ∧
      s'.attendanceCount = (if del.status = .present ∨ del.status = .entered
        then s.attendanceCount - 1 else s.attendanceCount) ∧
      s'.attendancePercentage = pctSpec s'.attendanceHistory ∧
      ((s'.attendanceHistory = [] ∧ s'.lastAttendance = none) ∨
        ∃ r ∈ s'.attendanceHistory, s'.lastAttendance = some r.date ∧
          ∀ x ∈ s'.attendanceHistory, x.date ≤ r.date)) := by
  refine ⟨delete_none_iff s recordId, fun hdel => ?_⟩
  obtain ⟨pre, post, hsplit, hpre, hrid, hh, hcount, hpct, _⟩ :=
    delete_some_spec s recordId del s' hdel
  exact ⟨hrid, ⟨pre, post, hsplit, hpre, hh⟩, hcount,
    by rw [hpct, recomputePct_eq_pctSpec, hh],
    delete_lastAttendance_spec s recordId del s' hdel⟩

/-- Witness for C5 at a concrete input: deleting record id 1 (a `present`
record, the student's only record) lowers the count from 1 to 0. -/
theorem C5_delete_record_contract_witness :
    (Student.mk [] 0 0 none).attendanceCount =
      (if Status.present = Status.present ∨ Status.present = Status.entered
        then 1 - 1 else 1) :=
  ((C5_delete_record_contract
    { attendanceHistory :=
        [{ rid := 1, date := 10, status := Status.present, entryTime := some 10,
           leaveTime := none, verifiedBy := none, scanLocation := "Main Entrance",
           deviceInfo := none }]
      attendanceCount := 1
      attendancePercentage := 100
      lastAttendance := some 10 }
    1
    { rid := 1, date := 10, status := Status.present, entryTime := some 10,
      leaveTime := none, verifiedBy := none, scanLocation := "Main Entrance",
      deviceInfo := none }
    (Student.mk [] 0 0 none)).2 (by decide)).2.2.1

/-! ## Claim C6 -/

theorem dayOf_eq_of_bounds {a now : Nat} (h1 : dayOf now * msPerDay ≤ a)
    (h2 : a ≤ now) : dayOf a = dayOf now := by
  have hms : 0 < msPerDay := by norm_num [msPerDay]
  unfold dayOf
  apply Nat.le_antisymm
  · exact Nat.div_le_div_right h2
  · exact (Nat.le_div_iff_mul_le hms).mpr h1

theorem day_mul_le_of_dayOf_eq {a now : Nat} (h : dayOf a = dayOf now) :
    dayOf now * msPerDay ≤ a := by
  rw [← h]
  unfold dayOf
  exact Nat.div_mul_le_self a msPerDay

/-- C6 counterexample: Invariant I3 fails after `markAttendance`. An
`entered` scan at instant 1000 followed by a `left` scan at instant 2000
the same day leaves the single history record with `date` 1000, while
`lastAttendance` is set to 2000 — so `lastAttendance` equals no record's
date, in particular not the chronologically latest one. -/
theorem C6_last_attendance_counterexample :
    (markAttendance (markAttendance {} .entered none none (some "Main Entrance") 1000 0)
      .left none none (some "Main Entrance") 2000 1).attendanceHistory.map (·.date) =
        [1000] ∧
    (markAttendance (markAttendance {} .entered none none (some "Main Entrance") 1000 0)
      .left none none (some "Main Entrance") 2000 1).lastAttendance = some 2000 ∧
    ∀ r ∈ (markAttendance (markAttendance {} .entered none none (some "Main Entrance") 1000 0)
      .left none none (some "Main Entrance") 2000 1).attendanceHistory,
        r.date ≠ 2000 := by
  decide

/-- C6 (amended): after `deleteAttendanceRecord` and
`clearAttendanceHistory`, `lastAttendance` equals the date of the
chronologically latest record in `attendanceHistory` (null when empty)
exactly as the claim states; after `markAttendance`, however,
`lastAttendance` is the mutation instant `now`, which merely falls on the
same calendar day as the chronologically latest record (assuming no record
is dated in the future) and can differ from that record's stored date. -/
theorem C6_last_attendance_amended (s : Student) (status : Status)
    (adminId : Option Nat) (deviceInfo : Option String)
    (scanLocation : Option String) (now : Time) (newRid recordId : Nat)
    (sm : Student) (del : AttRecord) (s' : Student)
    (hle : ∀ r ∈ s.attendanceHistory, r.date ≤ now)
    (hm : markAttendance s status adminId deviceInfo scanLocation now newRid = sm) :
    (sm.lastAttendance = some now ∧ sm.attendanceHistory ≠ [] ∧
      ∃ r ∈ sm.attendanceHistory, dayOf r.date = dayOf now ∧
        ∀ x ∈ sm.attendanceHistory, x.date ≤ r.date) ∧
    (deleteAttendanceRecord s recordId = some (del, s') →
      ((s'.attendanceHistory = [] ∧ s'.lastAttendance = none) ∨
        ∃ r ∈ s'.attendanceHistory, s'.lastAttendance = some r.date ∧
          ∀ x ∈ s'.attendanceHistory, x.date ≤ r.date)) ∧
    (clearAttendanceHistory s).lastAttendance = none := by
  subst hm
  refine ⟨?_, fun hdel => delete_lastAttendance_spec s recordId del s' hdel, rfl⟩
  cases hf : findIdxBy (fun r => decide (dayOf r.date = dayOf now))
      s.attendanceHistory with
  | none =>
      rw [markAttendance_of_none _ _ _ _ _ _ _ hf]
      refine ⟨rfl, by simp, ?_⟩
      refine ⟨newAttendanceRecord status adminId deviceInfo scanLocation now newRid,
        List.mem_append_right _ (List.mem_cons_self _ _), ?_, ?_⟩
      · simp [newAttendanceRecord]
      · intro x hx
        rcases List.mem_append.mp hx with hx | hx
        · exact le_trans (hle x hx) (by simp [newAttendanceRecord])
        · rcases List.mem_singleton.mp hx with rfl
          exact le_refl _
  | some idx =>
      obtain ⟨pre, a, post, hl, hlen, hpa, _⟩ := findIdxBy_some_split _ _ _ hf
      have hday : dayOf a.date = dayOf now := of_decide_eq_true hpa
      rw [markAttendance_of_some _ _ _ _ _ _ _ idx hf]
      have hmod : modifyIdx s.attendanceHistory idx
          (updateTodayRecord status adminId deviceInfo scanLocation now) =
          pre ++ updateTodayRecord status adminId deviceInfo scanLocation now a :: post := by
        rw [hl, ← hlen]
        exact modifyIdx_append_cons pre a post _
      simp only [hmod]
      have hfa_date : (updateTodayRecord status adminId deviceInfo scanLocation now a).date
          = a.date := updateTodayRecord_date _ _ _ _ _ _
      have hle' : ∀ x ∈ pre ++ updateTodayRecord status adminId deviceInfo scanLocation
          now a :: post, x.date ≤ now := by
        intro x hx
        rcases List.mem_append.mp hx with hx | hx
        · exact hle x (by rw [hl]; exact List.mem_append_left _ hx)
        · rcases List.mem_cons.mp hx with rfl | hx
          · rw [hfa_date]
            exact hle a (by rw [hl]; exact List.mem_append_right _ (List.mem_cons_self _ _))
          · exact hle x (by
              rw [hl]
              exact List.mem_append_right _ (List.mem_cons_of_mem _ hx))
      have hne : pre ++ updateTodayRecord status adminId deviceInfo scanLocation
          now a :: post ≠ [] := by simp
      obtain ⟨r, hr, hrd⟩ := exists_maxDate hne
      refine ⟨by simp, by simp, r, hr, ?_, ?_⟩
      · apply dayOf_eq_of_bounds
        · calc dayOf now * msPerDay ≤ a.date := day_mul_le_of_dayOf_eq hday
            _ = (updateTodayRecord status adminId deviceInfo scanLocation now a).date :=
              hfa_date.symm
            _ ≤ maxDate _ := le_maxDate
              (List.mem_append_right _ (List.mem_cons_self _ _))
            _ = r.date := hrd.symm
        · exact hle' r hr
      · intro x hx
        rw [hrd]
        exact le_maxDate hx

/-- Witness for C6 (amended) at a concrete input: a same-day `absent`
update at instant 50 of a student whose record is dated 10 sets
`lastAttendance` to 50. -/
theorem C6_last_attendance_amended_witness :
    (markAttendance
      { attendanceHistory :=
          [{ rid := 3, date := 10, status := Status.present, entryTime := some 10,
             leaveTime := none, verifiedBy := none, scanLocation := "Main Entrance",
             deviceInfo := none }]
        attendanceCount := 1
        attendancePercentage := 100
        lastAttendance := some 10 }
      .absent none none (some "Main Entrance") 50 9).lastAttendance = some 50 :=
  (C6_last_attendance_amended
    { attendanceHistory :=
        [{ rid := 3, date := 10, status := Status.present, entryTime := some 10,
           leaveTime := none, verifiedBy := none, scanLocation := "Main Entrance",
           deviceInfo := none }]
      attendanceCount := 1
      attendancePercentage := 100
      lastAttendance := some 10 }
    .absent none none (some "Main Entrance") 50 9 3
    (markAttendance
      { attendanceHistory :=
          [{ rid := 3, date := 10, status := Status.present, entryTime := some 10,
             leaveTime := none, verifiedBy := none, scanLocation := "Main Entrance",
             deviceInfo := none }]
        attendanceCount := 1
        attendancePercentage := 100
        lastAttendance := some 10 }
      .absent none none (some "Main Entrance") 50 9)
    { rid := 3, date := 10, status := Status.present, entryTime := some 10,
      leaveTime := none, verifiedBy := none, scanLocation := "Main Entrance",
      deviceInfo := none }
    (Student.mk [] 0 0 none)
    (by decide) rfl).1.1

/-! ## Claim C7 -/

theorem insertAscByDate_length (r : AttRecord) (l : List AttRecord) :
    (insertAscByDate r l).length = l.length + 1 := by
  induction l with
  | nil => rfl
  | cons x xs ih =>
    unfold insertAscByDate
    split <;> simp [ih]

theorem sortByDate_length (o : SortOrder) (l : List AttRecord) :
    (sortByDate o l).length = l.length := by
  induction l with
  | nil => cases o <;> rfl
  | cons r rs ih =>
    cases o <;>
      simp [sortByDate, insertAscByDate_length, insertDescByDate_length, ih]

/-- C7: pagination independence of stats. For a fixed student and fixed
`startDate`/`endDate` filter (and sort order), the `stats` object returned
by `getFilteredAttendanceHistory` is identical for all `limit`/`offset`
values; moreover its fields are the total history length, the filtered
(pre-pagination) count, the present-or-entered count and absent count over
the unfiltered history, and the cached `attendancePercentage`. -/
theorem C7_pagination_independent_stats (s : Student) (sd ed : Option Time)
    (o : SortOrder) (l1 l2 : Option Nat) (o1 o2 : Nat) :
    (getFilteredAttendanceHistory s
        { startDate := sd, endDate := ed, limit := l1, offset := o1,
          sortOrder := o }).stats =
      (getFilteredAttendanceHistory s
        { startDate := sd, endDate := ed, limit := l2, offset := o2,
          sortOrder := o }).stats ∧
    (getFilteredAttendanceHistory s
        { startDate := sd, endDate := ed, limit := l1, offset := o1,
          sortOrder := o }).stats =
      { totalCount := s.attendanceHistory.length
        filteredCount := (applyDateFilter s.attendanceHistory sd ed).length
        presentCount := presentOrEnteredCount s.attendanceHistory
        absentCount := (s.attendanceHistory.filter fun r =>
          decide (r.status = .absent)).length
        attendancePercentage := s.attendancePercentage } := by
  constructor
  · rfl
  · unfold getFilteredAttendanceHistory presentOrEnteredCount
    simp [sortByDate_length]

/-! ## Claim C8 -/

theorem mem_applyDateFilter (h : List AttRecord) (sd ed : Option Time)
    (r : AttRecord) :
    r ∈ applyDateFilter h sd ed ↔
      r ∈ h ∧ (∀ t, sd = some t → t ≤ r.date) ∧
        (∀ t, ed = some t → r.date ≤ endOfDay t) := by
  unfold applyDateFilter
  cases sd <;> cases ed <;> simp [List.mem_filter] <;> tauto

/-- C8 counterexample: the lower bound is the `startDate` instant itself,
not midnight of its day. With `startDate` at 01:00 of day 1 and a record
dated midnight of day 1 (same calendar day, and at-or-after that day's
midnight), the filter drops the record. -/
theorem C8_start_bound_counterexample :
    dayOf msPerDay = dayOf (msPerDay + 3600000) ∧
    dayOf (msPerDay + 3600000) * msPerDay ≤ msPerDay ∧
    (getFilteredAttendanceHistory
      { attendanceHistory :=
          [{ rid := 0, date := msPerDay, status := Status.present,
             entryTime := some msPerDay, leaveTime := none, verifiedBy := none,
             scanLocation := "Main Entrance", deviceInfo := none }]
        attendanceCount := 1
        attendancePercentage := 100
        lastAttendance := some msPerDay }
      { startDate := some (msPerDay + 3600000) }).records = [] := by
  refine ⟨by decide, by decide, ?_⟩
  decide

/-- C8 (amended): `getFilteredAttendanceHistory` with a `startDate` keeps
exactly those records whose date is at or after the `startDate` instant
itself as parsed (which is midnight of the day only when the given
`startDate` carries no time-of-day), and with an `endDate` keeps exactly
those whose date is at or before 23:59:59.999 of `endDate`'s day; both
bounds are inclusive, optional, and applied independently. Stated for the
unpaginated result (`limit = none`), whose records are the sorted filtered
history. -/
theorem C8_date_filter_amended (s : Student) (sd ed : Option Time)
    (o : SortOrder) (off : Nat) (r : AttRecord) :
    r ∈ (getFilteredAttendanceHistory s
        { startDate := sd, endDate := ed, limit := none, offset := off,
          sortOrder := o }).records ↔
      r ∈ s.attendanceHistory ∧ (∀ t, sd = some t → t ≤ r.date) ∧
        (∀ t, ed = some t → r.date ≤ endOfDay t) := by
  rw [← mem_applyDateFilter]
  unfold getFilteredAttendanceHistory
  exact mem_sortByDate o _

/-- Witness for C8 (amended) at a concrete input: with `startDate = 5` and
no `endDate`, a record dated 7 is kept. -/
theorem C8_date_filter_amended_witness :
    ({ rid := 0, date := 7, status := Status.entered, entryTime := some 7,
       leaveTime := none, verifiedBy := none, scanLocation := "Main Entrance",
       deviceInfo := none } : AttRecord) ∈
      (getFilteredAttendanceHistory
        { attendanceHistory :=
            [{ rid := 0, date := 7, status := Status.entered, entryTime := some 7,
               leaveTime := none, verifiedBy := none,
               scanLocation := "Main Entrance", deviceInfo := none }]
          attendanceCount := 0
          attendancePercentage := 100
          lastAttendance := some 7 }
        { startDate := some 5, endDate := none, limit := none, offset := 0,
          sortOrder := .desc }).records :=
  (C8_date_filter_amended
    { attendanceHistory :=
        [{ rid := 0, date := 7, status := Status.entered, entryTime := some 7,
           leaveTime := none, verifiedBy := none, scanLocation := "Main Entrance",
           deviceInfo := none }]
      attendanceCount := 0
      attendancePercentage := 100
      lastAttendance := some 7 }
    (some 5) none .desc 0
    { rid := 0, date := 7, status := Status.entered, entryTime := some 7,
      leaveTime := none, verifiedBy := none, scanLocation := "Main Entrance",
      deviceInfo := none }).mpr (by decide)

/-! ## Claim C9 -/

theorem modifyIdx_getElem?_ne {α : Type} (l : List α) (i j : Nat) (f : α → α)
    (h : j ≠ i) : (modifyIdx l i f)[j]? = l[j]? := by
  induction l generalizing i j with
  | nil => rfl
  | cons a as ih =>
    cases i with
    | zero =>
      cases j with
      | zero => exact absurd rfl h
      | succ k => simp [modifyIdx]
    | succ i' =>
      cases j with
      | zero => simp [modifyIdx]
      | succ k =>
        simp only [modifyIdx, List.getElem?_cons_succ]
        exact ih i' k (fun hk => h (by rw [hk]))

/-- C9: frame property of an `absent` update. When a record already exists
for today, `markAttendance` with status `absent` leaves that record's
`status`, `entryTime`, `leaveTime` (and `date`, `rid`) unchanged — the
record equation only touches the three provenance fields, each merged
non-destructively — leaves every other history entry untouched, leaves
`attendanceCount` unchanged, sets `lastAttendance` to `now`, and recomputes
`attendancePercentage` over the history. -/
theorem C9_absent_frame (s : Student) (adminId : Option Nat)
    (deviceInfo : Option String) (scanLocation : Option String) (now : Time)
    (newRid : Nat) (idx : Nat) (r : AttRecord) (s' : Student)
    (hIdx : findIdxBy (fun x => decide (dayOf x.date = dayOf now))
      s.attendanceHistory = some idx)
    (hr : s.attendanceHistory[idx]? = some r)
    (hs' : markAttendance s .absent adminId deviceInfo scanLocation now newRid = s') :
    s'.attendanceHistory[idx]? = some { r with
        verifiedBy := jsOr adminId r.verifiedBy
        scanLocation := scanLocation.getD r.scanLocation
        deviceInfo := jsOr deviceInfo r.deviceInfo } ∧
    (∀ j, j ≠ idx → s'.attendanceHistory[j]? = s.attendanceHistory[j]?) ∧
    s'.attendanceCount = s.attendanceCount ∧
    s'.lastAttendance = some now ∧
    s'.attendancePercentage = pctSpec s'.attendanceHistory := by
  subst hs'
  obtain ⟨pre, a, post, hl, hlen, _, _⟩ := findIdxBy_some_split _ _ _ hIdx
  have ha : a = r := by
    rw [hl, ← hlen, getElem?_append_cons] at hr
    exact Option.some_injective _ hr
  subst ha
  refine ⟨?_, ?_, ?_, ?_, ?_⟩
  · rw [markAttendance_of_some _ _ _ _ _ _ _ idx hIdx]
    simp only [hl, ← hlen, modifyIdx_append_cons, getElem?_append_cons]
    rw [updateTodayRecord_absent]
  · intro j hj
    rw [markAttendance_of_some _ _ _ _ _ _ _ idx hIdx]
    exact modifyIdx_getElem?_ne _ _ _ _ hj
  · rw [markAttendance_of_some _ _ _ _ _ _ _ idx hIdx]
    simp [hr]
  · rw [markAttendance_of_some _ _ _ _ _ _ _ idx hIdx]
  · rw [markAttendance_pct_eq, recomputePct_eq_pctSpec]

/-- Witness for C9 at a concrete input: an `absent` call at instant 60 on
a student whose today-record is a `left` record dated 10 leaves the count
at 4. -/
theorem C9_absent_frame_witness :
    (markAttendance
      { attendanceHistory :=
          [{ rid := 2, date := 10, status := Status.left, entryTime := some 10,
             leaveTime := some 12, verifiedBy := some 1, scanLocation := "Hall",
             deviceInfo := some "cam" }]
        attendanceCount := 4
        attendancePercentage := 0
        lastAttendance := some 12 }
      .absent none none (some "Main Entrance") 60 9).attendanceCount = 4 :=
  (C9_absent_frame
    { attendanceHistory :=
        [{ rid := 2, date := 10, status := Status.left, entryTime := some 10,
           leaveTime := some 12, verifiedBy := some 1, scanLocation := "Hall",
           deviceInfo := some "cam" }]
      attendanceCount := 4
      attendancePercentage := 0
      lastAttendance := some 12 }
    none none (some "Main Entrance") 60 9 0
    { rid := 2, date := 10, status := Status.left, entryTime := some 10,
      leaveTime := some 12, verifiedBy := some 1, scanLocation := "Hall",
      deviceInfo := some "cam" }
    (markAttendance
      { attendanceHistory :=
          [{ rid := 2, date := 10, status := Status.left, entryTime := some 10,
             leaveTime := some 12, verifiedBy := some 1, scanLocation := "Hall",
             deviceInfo := some "cam" }]
        attendanceCount := 4
        attendancePercentage := 0
        lastAttendance := some 12 }
      .absent none none (some "Main Entrance") 60 9)
    (by decide) (by decide) rfl).2.2.1

/-! ## Claim C10 -/

theorem status_filter_partition (l : List AttRecord) :
    (l.filter fun r => decide (r.status = .present)).length +
      (l.filter fun r => decide (r.status = .absent)).length +
      (l.filter fun r => decide (r.status = .entered ∨ r.status = .left)).length =
      l.length := by
  induction l with
  | nil => rfl
  | cons a as ih =>
    rw [List.filter_cons, List.filter_cons, List.filter_cons]
    cases ha : a.status
    case present =>
      rw [if_pos (by simp [ha]), if_neg (by simp [ha]), if_neg (by simp [ha])]
      simp only [List.length_cons]
      omega
    case absent =>
      rw [if_neg (by simp [ha]), if_pos (by simp [ha]), if_neg (by simp [ha])]
      simp only [List.length_cons]
      omega
    case left =>
      rw [if_neg (by simp [ha]), if_neg (by simp [ha]), if_pos (by simp [ha])]
      simp only [List.length_cons]
      omega
    case entered =>
      rw [if_neg (by simp [ha]), if_neg (by simp [ha]), if_pos (by simp [ha])]
      simp only [List.length_cons]
      omega

/-- C10: `getAttendanceStats(startDate, endDate)` counts a record as
present only when its status is exactly `present` and as absent only when
it is exactly `absent`; records with status `entered` or `left` contribute
to the total but to neither bucket (the partition conjunct); the
percentage is `100 × presentCount / total` over the records in range and 0
when no record falls in range. This is a stricter rule than the
present-or-entered rule used for `attendancePercentage`. -/
theorem C10_attendance_stats (s : Student) (sd ed : Time) :
    (getAttendanceStats s sd ed).total =
      (s.attendanceHistory.filter fun r =>
        decide (sd ≤ r.date ∧ r.date ≤ ed)).length ∧
    (getAttendanceStats s sd ed).present =
      ((s.attendanceHistory.filter fun r =>
        decide (sd ≤ r.date ∧ r.date ≤ ed)).filter fun r =>
          decide (r.status = .present)).length ∧
    (getAttendanceStats s sd ed).absent =
      ((s.attendanceHistory.filter fun r =>
        decide (sd ≤ r.date ∧ r.date ≤ ed)).filter fun r =>
          decide (r.status = .absent)).length ∧
    (getAttendanceStats s sd ed).present + (getAttendanceStats s sd ed).absent +
      ((s.attendanceHistory.filter fun r =>
        decide (sd ≤ r.date ∧ r.date ≤ ed)).filter fun r =>
          decide (r.status = .entered ∨ r.status = .left)).length =
      (getAttendanceStats s sd ed).total ∧
    (getAttendanceStats s sd ed).percentage =
      (if (s.attendanceHistory.filter fun r =>
            decide (sd ≤ r.date ∧ r.date ≤ ed)).length = 0 then 0
        else 100 * ((getAttendanceStats s sd ed).present : Rat) /
          ((s.attendanceHistory.filter fun r =>
            decide (sd ≤ r.date ∧ r.date ≤ ed)).length : Rat)) := by
  refine ⟨rfl, rfl, rfl, status_filter_partition _, ?_⟩
  unfold getAttendanceStats
  dsimp only
  by_cases h : (s.attendanceHistory.filter fun r =>
      decide (sd ≤ r.date ∧ r.date ≤ ed)).length = 0
  · rw [if_pos h, if_neg (by omega)]
  · rw [if_neg h, if_pos (Nat.pos_of_ne_zero h)]
    ring

end AttendLedger
